import Mathlib

/-!
Verification of the ETL_Hackathon repository's validation-and-aggregation
pipeline against its specification.

The repository has three executable variants:
* `src/v1/ETL_pipeline.py` — the class-based pipeline (`DataCleaner`,
  `MetricsCalculator`), modelled in namespace `V1`;
* `src/Class_data_clean.py` — the standalone shipment/refund cleaning script,
  modelled in namespace `CDC`;
* `src/Shipment_refund.py` — the standalone shipment/refund metrics script,
  modelled in namespace `SR`.

Dataset cells are modelled as `List Char` (the CSV text of the cell).  Python
float values are modelled by `PyFloat` (exact rationals plus `nan`/`inf`/`ninf`);
float parsing (`float(...)`, `pd.to_numeric`) is modelled by `pyParseFloat`
over Python's float-literal grammar.
-/

set_option maxRecDepth 40000

/-- Characters of a string literal, used to state concrete scenarios. -/
def chars (s : String) : List Char := s.data

/-- Whitespace characters stripped by Python's `str.strip()` (ASCII range). -/
def isPyWs (c : Char) : Bool :=
  c = ' ' || c = '\t' || c = '\n' || c = '\x0d' || c = '\x0b' || c = '\x0c'

/-- Python's `str.strip()`: drop leading and trailing whitespace. -/
def pyStrip (cs : List Char) : List Char :=
  ((cs.dropWhile isPyWs).reverse.dropWhile isPyWs).reverse

/-- Lexicographic comparison of strings, as used by pandas when sorting
group keys (`groupby(..., sort=True)`). -/
def lexLe : List Char → List Char → Bool
  | [], _ => true
  | _ :: _, [] => false
  | a :: as, b :: bs => if a = b then lexLe as bs else decide (a < b)

/-- Rational addition, computed through `mkRat` so that concrete runs of the
embedded programs reduce inside the kernel; equal to `a + b` (`qAdd_eq`). -/
def qAdd (a b : ℚ) : ℚ := mkRat (a.num * b.den + b.num * a.den) (a.den * b.den)

/-- Rational multiplication through `mkRat`; equal to `a * b` (`qMul_eq`). -/
def qMul (a b : ℚ) : ℚ := mkRat (a.num * b.num) (a.den * b.den)

/-- A Python/pandas float value: an exact rational, or one of the special
values `nan`, `inf`, `-inf`. -/
inductive PyFloat where
  | num (q : ℚ)
  | nan
  | inf
  | ninf
deriving DecidableEq, Repr

/-- Negation of a Python float. -/
def PyFloat.neg : PyFloat → PyFloat
  | .num q => .num (-q)
  | .nan => .nan
  | .inf => .ninf
  | .ninf => .inf

/-- Python `x > 0` on a float (false for `nan`). -/
def PyFloat.gtZero : PyFloat → Bool
  | .num q => decide (0 < q)
  | .nan => false
  | .inf => true
  | .ninf => false

/-- Python `x >= 0` on a float (false for `nan`). -/
def PyFloat.geZero : PyFloat → Bool
  | .num q => decide (0 ≤ q)
  | .nan => false
  | .inf => true
  | .ninf => false

/-- Python float addition (`nan` is absorbing; `inf + -inf = nan`). -/
def PyFloat.add : PyFloat → PyFloat → PyFloat
  | .nan, _ => .nan
  | _, .nan => .nan
  | .inf, .ninf => .nan
  | .ninf, .inf => .nan
  | .inf, _ => .inf
  | _, .inf => .inf
  | .ninf, _ => .ninf
  | _, .ninf => .ninf
  | .num a, .num b => .num (qAdd a b)

/-- The total order used to model pandas sorting of float columns
(`nan` ordered below everything, matching `nlargest` placing `NaN` last). -/
def PyFloat.leB : PyFloat → PyFloat → Bool
  | .nan, _ => true
  | _, .nan => false
  | .ninf, _ => true
  | _, .ninf => false
  | .num x, .num y => decide (x ≤ y)
  | .num _, .inf => true
  | .inf, .num _ => false
  | .inf, .inf => true

/-- Numeric value of a digit character. -/
def digVal? (c : Char) : Option Nat :=
  if c.isDigit then some (c.toNat - '0'.toNat) else none

/-- Decimal digits with single underscores allowed between digits, as in a
Python numeric literal; accumulates the value and the count of digits. -/
def decTail (acc cnt : Nat) : List Char → Option (Nat × Nat)
  | [] => some (acc, cnt)
  | c :: rest =>
    if c = '_' then
      match rest with
      | c2 :: rest2 =>
        match digVal? c2 with
        | some d => decTail (acc * 10 + d) (cnt + 1) rest2
        | none => none
      | [] => none
    else
      match digVal? c with
      | some d => decTail (acc * 10 + d) (cnt + 1) rest
      | none => none

/-- A nonempty run of decimal digits (underscores between digits allowed);
returns the value and the number of digits, or `none` if malformed. -/
def decDigits? : List Char → Option (Nat × Nat)
  | [] => none
  | c :: rest =>
    match digVal? c with
    | some d => decTail d 1 rest
    | none => none

/-- Split a string at the first character satisfying `p`; the second
component is `none` when no such character occurs. -/
def breakOn (p : Char → Bool) : List Char → List Char × Option (List Char)
  | [] => ([], none)
  | c :: rest =>
    if p c then ([], some rest)
    else
      let r := breakOn p rest
      (c :: r.1, r.2)

/-- Multiply a rational by `10 ^ e` for an integer exponent `e`, computed
through `mkRat` so concrete runs reduce in the kernel. -/
def applyTens (q : ℚ) (e : ℤ) : ℚ :=
  if 0 ≤ e then mkRat (q.num * (10 ^ e.toNat : ℕ)) q.den
  else mkRat q.num (q.den * 10 ^ (-e).toNat)

/-- The mantissa of a Python float literal: `digits`, `digits.digits`,
`digits.`, or `.digits`. -/
def parseMantissa? (cs : List Char) : Option ℚ :=
  match breakOn (fun c => c = '.') cs with
  | (ip, none) => (decDigits? ip).map fun v => (v.1 : ℚ)
  | ([], some fp) => (decDigits? fp).map fun v => applyTens (v.1 : ℚ) (-(v.2 : ℤ))
  | (ip, some []) => (decDigits? ip).map fun v => (v.1 : ℚ)
  | (ip, some fp) =>
    match decDigits? ip, decDigits? fp with
    | some iv, some fv => some (qAdd (iv.1 : ℚ) (applyTens (fv.1 : ℚ) (-(fv.2 : ℤ))))
    | _, _ => none

/-- The exponent of a Python float literal: optional sign then digits. -/
def parseExp? : List Char → Option ℤ
  | [] => none
  | c :: rest =>
    if c = '+' then (decDigits? rest).map fun v => (v.1 : ℤ)
    else if c = '-' then (decDigits? rest).map fun v => -(v.1 : ℤ)
    else (decDigits? (c :: rest)).map fun v => (v.1 : ℤ)

/-- Case-insensitive comparison with a keyword. -/
def lowEq (cs : List Char) (s : String) : Bool :=
  decide (cs.map Char.toLower = chars s)

/-- An unsigned Python float string: `inf`, `infinity`, `nan`
(case-insensitive), or mantissa with optional `e`/`E` exponent. -/
def pyParseUnsigned (cs : List Char) : Option PyFloat :=
  if lowEq cs "inf" || lowEq cs "infinity" then some .inf
  else if lowEq cs "nan" then some .nan
  else
    match breakOn (fun c => c = 'e' || c = 'E') cs with
    | (mant, none) => (parseMantissa? mant).map .num
    | (mant, some ex) =>
      match parseMantissa? mant, parseExp? ex with
      | some m, some e => some (.num (applyTens m e))
      | _, _ => none

/-- Python's `float(...)` applied to a string: strip whitespace, optional
sign, then an unsigned float string.  `none` models `ValueError`. -/
def pyParseFloat (cs0 : List Char) : Option PyFloat :=
  match pyStrip cs0 with
  | [] => none
  | c :: rest =>
    if c = '+' then pyParseUnsigned rest
    else if c = '-' then (pyParseUnsigned rest).map PyFloat.neg
    else pyParseUnsigned (c :: rest)

/-- `pd.to_numeric(x, errors='coerce')` on a cell: parse failures become
`NaN`. -/
def to_numeric (cs : List Char) : PyFloat :=
  (pyParseFloat cs).getD .nan

/-- Value of a hexadecimal digit character (`0`-`9`, `a`-`f`, `A`-`F`, by
ASCII code). -/
def hexVal? (c : Char) : Option Nat :=
  if 48 ≤ c.toNat ∧ c.toNat ≤ 57 then some (c.toNat - 48)
  else if 97 ≤ c.toNat ∧ c.toNat ≤ 102 then some (c.toNat - 97 + 10)
  else if 65 ≤ c.toNat ∧ c.toNat ≤ 70 then some (c.toNat - 65 + 10)
  else none

/-- Whether a character is a hexadecimal digit. -/
def isHexDig (c : Char) : Bool := (hexVal? c).isSome

/-- Hexadecimal digits with single underscores allowed between digits,
continuing an accumulated value, as accepted by Python's `int(s, 16)`. -/
def hexTail (acc : Nat) : List Char → Option Nat
  | [] => some acc
  | c :: rest =>
    if c = '_' then
      match rest with
      | c2 :: rest2 =>
        match hexVal? c2 with
        | some d => hexTail (acc * 16 + d) rest2
        | none => none
      | [] => none
    else
      match hexVal? c with
      | some d => hexTail (acc * 16 + d) rest
      | none => none

/-- A nonempty run of hexadecimal digits (single underscores between digits
allowed). -/
def hexBody : List Char → Option Nat
  | [] => none
  | c :: rest =>
    match hexVal? c with
    | some d => hexTail d rest
    | none => none

/-- After a `0x` base marker Python permits one underscore before the
digits. -/
def hexAfterBase : List Char → Option Nat
  | [] => none
  | c :: rest => if c = '_' then hexBody rest else hexBody (c :: rest)

/-- An unsigned hexadecimal numeral, with optional `0x`/`0X` prefix, as
accepted by Python's `int(s, 16)`. -/
def hexNoSign (cs : List Char) : Option Nat :=
  match cs with
  | c0 :: c1 :: rest =>
    if c0 = '0' ∧ (c1 = 'x' ∨ c1 = 'X') then hexAfterBase rest else hexBody cs
  | _ => hexBody cs

/-- Python's `int(s, 16)`: strip whitespace, optional sign, then an unsigned
hexadecimal numeral.  `none` models `ValueError`. -/
def pyIntHex? (cs0 : List Char) : Option ℤ :=
  match pyStrip cs0 with
  | [] => none
  | c :: rest =>
    if c = '+' then (hexNoSign rest).map Int.ofNat
    else if c = '-' then (hexNoSign rest).map fun n => -(n : ℤ)
    else (hexNoSign (c :: rest)).map Int.ofNat

/-- Worker for `stripOcc`: remove every occurrence of `pat`, scanning left to
right without rescanning over a seam (Python `str.replace(pat, '')`); the
counter records characters of a just-matched occurrence still to skip. -/
def stripOccGo (pat : List Char) : List Char → Nat → List Char
  | [], _ => []
  | _ :: rest, k + 1 => stripOccGo pat rest k
  | c :: rest, 0 =>
    if pat.isPrefixOf (c :: rest) then stripOccGo pat rest (pat.length - 1)
    else c :: stripOccGo pat rest 0

/-- Python's `s.replace(pat, '')` for a nonempty pattern. -/
def stripOcc (pat cs : List Char) : List Char := stripOccGo pat cs 0

/-- Whether a character is `{` or `}` (the set stripped by the
`hex.strip(...)` step of `uuid.UUID`). -/
def isBrace (c : Char) : Bool := c = '\x7b' || c = '\x7d'

/-- The normalization performed by CPython's `uuid.UUID(hex=...)` before the
32-hex-digit check: remove every `urn:` and `uuid:` substring, strip
surrounding braces, delete all hyphens. -/
def uuidNormalize (cs : List Char) : List Char :=
  let h1 := stripOcc (chars "uuid:") (stripOcc (chars "urn:") cs)
  let h2 := ((h1.dropWhile isBrace).reverse.dropWhile isBrace).reverse
  h2.filter fun c => decide (c ≠ '-')

/-- `is_valid_uuid` of `src/v1/ETL_pipeline.py` (`DataValidator`) and
`src/Class_data_clean.py`: `uuid.UUID(str(val))` succeeds, i.e. after
`uuidNormalize` the string is 32 characters parsing as a hexadecimal integer
in `[0, 2^128)`. -/
def is_valid_uuid (cs : List Char) : Bool :=
  let h := uuidNormalize cs
  decide (h.length = 32) &&
    match pyIntHex? h with
    | some n => decide (0 ≤ n ∧ n < 2 ^ 128)
    | none => false

/-- Split a string at every hyphen. -/
def splitDash : List Char → List (List Char)
  | [] => [[]]
  | c :: rest =>
    if c = '-' then [] :: splitDash rest
    else
      match splitDash rest with
      | g :: gs => (c :: g) :: gs
      | [] => [[c]]

/-- The specification's notion of a canonical UUID: hexadecimal digits in
8-4-4-4-12 grouping separated by hyphens (case-insensitive). -/
def isCanonicalUUID (cs : List Char) : Bool :=
  match splitDash cs with
  | [a, b, c, d, e] =>
    decide (a.length = 8) && decide (b.length = 4) && decide (c.length = 4) &&
      decide (d.length = 4) && decide (e.length = 12) &&
      a.all isHexDig && b.all isHexDig && c.all isHexDig && d.all isHexDig &&
      e.all isHexDig
  | _ => false

/-- Whether some `.` occurs with at least one character after it. -/
def dotBeforeEnd : List Char → Bool
  | c :: c2 :: rest => c = '.' || dotBeforeEnd (c2 :: rest)
  | _ => false

/-- `is_valid_email` of `src/v1/ETL_pipeline.py`:
`re.match(r"[^@]+@[^@]+\.[^@]+", email) is not None`.  A prefix match exists
iff the first `@` has at least one character before it and the non-`@`
segment after it contains a `.` that is neither its first nor its last
character position. -/
def is_valid_email (cs : List Char) : Bool :=
  match breakOn (fun c => c = '@') cs with
  | (_, none) => false
  | ([], some _) => false
  | (_ :: _, some rest) =>
    match (breakOn (fun c => c = '@') rest).1 with
    | [] => false
    | _ :: segRest => dotBeforeEnd segRest

/-- `is_valid_phone` of `src/v1/ETL_pipeline.py`:
`re.match(r"^\d{10}$", phone) is not None` — ten decimal digits (the regex
`$` also tolerates one trailing newline). -/
def is_valid_phone (cs : List Char) : Bool :=
  (decide (cs.length = 10) && cs.all Char.isDigit) ||
    (decide (cs.length = 11) && (cs.take 10).all Char.isDigit &&
      decide (cs.getLast? = some '\n'))

/-- Gregorian leap year. -/
def isLeap (y : Nat) : Bool :=
  decide (y % 4 = 0) && (decide (y % 100 ≠ 0) || decide (y % 400 = 0))

/-- Days in a month. -/
def daysInMonth (y m : Nat) : Nat :=
  if m = 2 then (if isLeap y then 29 else 28)
  else if m = 4 ∨ m = 6 ∨ m = 9 ∨ m = 11 then 30
  else 31

/-- Two decimal digit characters as a number. -/
def num2 (a b : Char) : Nat := (a.toNat - '0'.toNat) * 10 + (b.toNat - '0'.toNat)

/-- Four decimal digit characters as a number. -/
def num4 (a b c d : Char) : Nat :=
  (num2 a b * 10 + (c.toNat - '0'.toNat)) * 10 + (d.toNat - '0'.toNat)

/-- Match of the regex `\d{4}-\d{2}-\d{2}` at the head of the string. -/
def dateAt? : List Char → Option (Nat × Nat × Nat)
  | y1 :: y2 :: y3 :: y4 :: h1 :: m1 :: m2 :: h2 :: d1 :: d2 :: _ =>
    if y1.isDigit && y2.isDigit && y3.isDigit && y4.isDigit && h1 = '-' &&
        m1.isDigit && m2.isDigit && h2 = '-' && d1.isDigit && d2.isDigit then
      some (num4 y1 y2 y3 y4, num2 m1 m2, num2 d1 d2)
    else none
  | _ => none

/-- First match of `\d{4}-\d{2}-\d{2}` anywhere in the string
(`Series.str.extract`). -/
def extractDate : List Char → Option (Nat × Nat × Nat)
  | [] => none
  | c :: rest =>
    match dateAt? (c :: rest) with
    | some d => some d
    | none => extractDate rest

/-- Whether the date fits within the representable `pd.Timestamp` range
(dates outside it coerce to `NaT`). -/
def tsInRange (y m d : Nat) : Bool :=
  let n := y * 10000 + m * 100 + d
  decide (16770922 ≤ n) && decide (n ≤ 22620411)

/-- A valid calendar date accepted by `pd.to_datetime`. -/
def validDate (y m d : Nat) : Bool :=
  decide (1 ≤ m) && decide (m ≤ 12) && decide (1 ≤ d) &&
    decide (d ≤ daysInMonth y m) && tsInRange y m d

/-- The order-date pipeline of `clean_orders`:
`pd.to_datetime(date.str.extract(r'(\d{4}-\d{2}-\d{2})')[0], errors='coerce')`;
`none` models `NaT`. -/
def parseDate (cs : List Char) : Option (Nat × Nat × Nat) :=
  match extractDate cs with
  | none => none
  | some (y, m, d) => if validDate y m d then some (y, m, d) else none

/-- Worker for `drop_duplicates`: keep a row iff its key was not seen
before. -/
def dedupByGo {K : Type} [DecidableEq K] (key : α → K) (seen : List K) :
    List α → List α
  | [] => []
  | r :: rest =>
    if key r ∈ seen then dedupByGo key seen rest
    else r :: dedupByGo key (key r :: seen) rest

/-- pandas `DataFrame.drop_duplicates(subset=key)` with the default
`keep='first'`. -/
def drop_duplicates {K : Type} [DecidableEq K] (key : α → K) (l : List α) :
    List α :=
  dedupByGo key [] l

/-- Stable sort by a boolean relation (pandas sorts are stable for equal
keys). -/
def sortWith (le : α → α → Bool) (l : List α) : List α :=
  List.insertionSort (fun a b => le a b) l

/-- pandas `DataFrame.nlargest(n, col)`: stable descending sort by the
column then take the first `n`. -/
def nlargestBy (val : α → PyFloat) (n : Nat) (l : List α) : List α :=
  (sortWith (fun a b => PyFloat.leB (val b) (val a)) l).take n

/-- pandas `groupby(key)` with the default `sort=True`: the distinct keys in
ascending order, each with the rows carrying it in original order. -/
def groupBy {K : Type} [DecidableEq K] (le : K → K → Bool) (key : α → K)
    (l : List α) : List (K × List α) :=
  (sortWith le (dedupByGo id [] (l.map key))).map fun k =>
    (k, l.filter fun a => decide (key a = k))

/-- Lexicographic order on pairs of strings (pandas multi-key group sort). -/
def pairLe (a b : List Char × List Char) : Bool :=
  if a.1 = b.1 then lexLe a.2 b.2 else lexLe a.1 b.1

/-- pandas column `count` aggregation: number of non-missing values. -/
def skipnaCount (vals : List PyFloat) : Nat :=
  (vals.filter fun v => decide (v ≠ .nan)).length

/-- pandas column `sum` aggregation: sum of the non-missing values
(`skipna=True`; an all-missing column sums to `0`). -/
def skipnaSum (vals : List PyFloat) : PyFloat :=
  List.foldl PyFloat.add (.num 0) (vals.filter fun v => decide (v ≠ .nan))

/-- Python float multiplication (`nan` absorbing, `inf * 0 = nan`, signs). -/
def PyFloat.mul : PyFloat → PyFloat → PyFloat
  | .nan, _ => .nan
  | _, .nan => .nan
  | .num a, .num b => .num (qMul a b)
  | .inf, .inf => .inf
  | .inf, .ninf => .ninf
  | .ninf, .inf => .ninf
  | .ninf, .ninf => .inf
  | .inf, .num b => if 0 < b then .inf else if b < 0 then .ninf else .nan
  | .num a, .inf => if 0 < a then .inf else if a < 0 then .ninf else .nan
  | .ninf, .num b => if 0 < b then .ninf else if b < 0 then .inf else .nan
  | .num a, .ninf => if 0 < a then .ninf else if a < 0 then .inf else .nan

namespace V1

/-- A row of `customers.csv` as used by `DataCleaner.clean_customers`. -/
structure CustomerRow where
  id : List Char
  name : List Char
  email : List Char
  phone : List Char
deriving DecidableEq, Repr

/-- A row of `products.csv` as loaded (all cells text). -/
structure ProductRowS where
  id : List Char
  name : List Char
  category : List Char
  price : List Char
  stock : List Char
deriving DecidableEq, Repr

/-- A product row after `pd.to_numeric` overwrote `price` and `stock`. -/
structure ProductRowN where
  id : List Char
  name : List Char
  category : List Char
  price : PyFloat
  stock : PyFloat
deriving DecidableEq, Repr

/-- A row of `orders.csv` as loaded. -/
structure OrderRowS where
  id : List Char
  customer_id : List Char
  product_id : List Char
  quantity : List Char
  date : List Char
deriving DecidableEq, Repr

/-- An order row after `quantity` was coerced and `date` parsed in place. -/
structure OrderRowN where
  id : List Char
  customer_id : List Char
  product_id : List Char
  quantity : PyFloat
  date : Option (Nat × Nat × Nat)
deriving DecidableEq, Repr

/-- A row of `shipments.csv` (the fields `clean_shipments` reads). -/
structure ShipmentRow where
  id : List Char
  order_id : List Char
  carrier : List Char
  status : List Char
deriving DecidableEq, Repr

/-- A row of `refunds.csv` as loaded. -/
structure RefundRowS where
  id : List Char
  order_id : List Char
  product_id : List Char
  reason : List Char
  refund_amount : List Char
deriving DecidableEq, Repr

/-- A refund row after `refund_amount` was coerced in place. -/
structure RefundRowN where
  id : List Char
  order_id : List Char
  product_id : List Char
  reason : List Char
  refund_amount : PyFloat
deriving DecidableEq, Repr

/-- The row filter of `clean_customers`: valid id, non-blank name, and a
valid email or phone. -/
def customerKeep (r : CustomerRow) : Bool :=
  is_valid_uuid r.id && decide (pyStrip r.name ≠ []) &&
    (is_valid_email r.email || is_valid_phone r.phone)

/-- `DataCleaner.clean_customers`: filter then `drop_duplicates(subset='id')`. -/
def clean_customers (customers : List CustomerRow) : List CustomerRow :=
  drop_duplicates (·.id) (customers.filter customerKeep)

/-- The in-place `pd.to_numeric(..., errors='coerce')` on `price`/`stock`. -/
def coerceProduct (r : ProductRowS) : ProductRowN :=
  { id := r.id, name := r.name, category := r.category,
    price := to_numeric r.price, stock := to_numeric r.stock }

/-- The fixed category whitelist of `clean_products`. -/
def productCategories : List (List Char) :=
  [chars "Electronics", chars "Furniture", chars "Clothing", chars "Beauty",
    chars "Sports"]

/-- The row filter of `clean_products`. -/
def productKeep (r : ProductRowN) : Bool :=
  is_valid_uuid r.id && decide (pyStrip r.name ≠ []) &&
    decide (r.category ∈ productCategories) && r.price.gtZero && r.stock.geZero

/-- The final name pass of `clean_products`:
`str.replace(r'[^a-zA-Z0-9\s]', '')` then `str.strip()`. -/
def stripProductName (r : ProductRowN) : ProductRowN :=
  { r with name := pyStrip (r.name.filter fun c => c.isAlphanum || isPyWs c) }

/-- The cleaned-products dataset derived from the coerced raw dataset:
filter, strip names, deduplicate by id. -/
def productsValid (coerced : List ProductRowN) : List ProductRowN :=
  drop_duplicates (·.id) ((coerced.filter productKeep).map stripProductName)

/-- `DataCleaner.clean_products` viewed as a pure function: returns the
mutated raw dataset and the cleaned dataset. -/
def clean_products (products : List ProductRowS) :
    List ProductRowN × List ProductRowN :=
  let coerced := products.map coerceProduct
  (coerced, productsValid coerced)

/-- The in-place coercion of `quantity` and date extraction of
`clean_orders`. -/
def coerceOrder (r : OrderRowS) : OrderRowN :=
  { id := r.id, customer_id := r.customer_id, product_id := r.product_id,
    quantity := to_numeric r.quantity, date := parseDate r.date }

/-- The row filter of `clean_orders`. -/
def orderKeep (r : OrderRowN) : Bool :=
  is_valid_uuid r.id && is_valid_uuid r.customer_id &&
    is_valid_uuid r.product_id && r.quantity.geZero && r.date.isSome

/-- The cleaned-orders dataset derived from the coerced raw dataset. -/
def ordersValid (coerced : List OrderRowN) : List OrderRowN :=
  drop_duplicates (·.id) (coerced.filter orderKeep)

/-- `DataCleaner.clean_orders` viewed as a pure function. -/
def clean_orders (orders : List OrderRowS) : List OrderRowN × List OrderRowN :=
  let coerced := orders.map coerceOrder
  (coerced, ordersValid coerced)

/-- The fixed carrier whitelist of `clean_shipments`. -/
def shipmentCarriers : List (List Char) :=
  [chars "FedEx", chars "UPS", chars "DHL", chars "USPS"]

/-- The fixed status whitelist of `clean_shipments`. -/
def shipmentStatuses : List (List Char) :=
  [chars "Shipped", chars "Delivered", chars "Delayed", chars "Unknown"]

/-- The row filter of `clean_shipments`. -/
def shipmentKeep (r : ShipmentRow) : Bool :=
  is_valid_uuid r.id && is_valid_uuid r.order_id &&
    decide (r.carrier ∈ shipmentCarriers) && decide (r.status ∈ shipmentStatuses)

/-- `DataCleaner.clean_shipments`: filter then deduplicate by id; the raw
dataset is not modified. -/
def clean_shipments (shipments : List ShipmentRow) : List ShipmentRow :=
  drop_duplicates (·.id) (shipments.filter shipmentKeep)

/-- The in-place coercion of `refund_amount` of `clean_refunds`. -/
def coerceRefund (r : RefundRowS) : RefundRowN :=
  { id := r.id, order_id := r.order_id, product_id := r.product_id,
    reason := r.reason, refund_amount := to_numeric r.refund_amount }

/-- The row filter of `clean_refunds` (note: no referential check against
orders or products, and no check on `reason`). -/
def refundKeep (r : RefundRowN) : Bool :=
  is_valid_uuid r.id && is_valid_uuid r.order_id &&
    is_valid_uuid r.product_id && r.refund_amount.gtZero

/-- The cleaned-refunds dataset derived from the coerced raw dataset. -/
def refundsValid (coerced : List RefundRowN) : List RefundRowN :=
  drop_duplicates (·.id) (coerced.filter refundKeep)

/-- `DataCleaner.clean_refunds` viewed as a pure function. -/
def clean_refunds (refunds : List RefundRowS) :
    List RefundRowN × List RefundRowN :=
  let coerced := refunds.map coerceRefund
  (coerced, refundsValid coerced)

/-- The state of a `DataCleaner` object: the (possibly in-place mutated) raw
datasets and the `valid_*` attributes (`none` before cleaning). -/
structure CleanerState where
  customers : List CustomerRow
  products : List ProductRowS ⊕ List ProductRowN
  orders : List OrderRowS ⊕ List OrderRowN
  shipments : List ShipmentRow
  refunds : List RefundRowS ⊕ List RefundRowN
  valid_customers : Option (List CustomerRow) := none
  valid_products : Option (List ProductRowN) := none
  valid_orders : Option (List OrderRowN) := none
  valid_shipments : Option (List ShipmentRow) := none
  valid_refunds : Option (List RefundRowN) := none

/-- The coerced form of the stored products dataset (`pd.to_numeric` is the
identity on an already-numeric column). -/
def productsCoerced : List ProductRowS ⊕ List ProductRowN → List ProductRowN
  | .inl ps => ps.map coerceProduct
  | .inr pn => pn

/-- The coerced form of the stored orders dataset. -/
def ordersCoerced : List OrderRowS ⊕ List OrderRowN → List OrderRowN
  | .inl os => os.map coerceOrder
  | .inr od => od

/-- The coerced form of the stored refunds dataset. -/
def refundsCoerced : List RefundRowS ⊕ List RefundRowN → List RefundRowN
  | .inl rs => rs.map coerceRefund
  | .inr rn => rn

/-- `clean_customers` as a state transformer (reads and writes `self`). -/
def cleanCustomersStep (s : CleanerState) : CleanerState :=
  { s with valid_customers := some (clean_customers s.customers) }

/-- `clean_products` as a state transformer: overwrites the raw dataset with
the coerced one and stores the cleaned dataset. -/
def cleanProductsStep (s : CleanerState) : CleanerState :=
  let coerced := productsCoerced s.products
  { s with products := .inr coerced, valid_products := some (productsValid coerced) }

/-- `clean_orders` as a state transformer. -/
def cleanOrdersStep (s : CleanerState) : CleanerState :=
  let coerced := ordersCoerced s.orders
  { s with orders := .inr coerced, valid_orders := some (ordersValid coerced) }

/-- `clean_shipments` as a state transformer (raw dataset untouched). -/
def cleanShipmentsStep (s : CleanerState) : CleanerState :=
  { s with valid_shipments := some (clean_shipments s.shipments) }

/-- `clean_refunds` as a state transformer. -/
def cleanRefundsStep (s : CleanerState) : CleanerState :=
  let coerced := refundsCoerced s.refunds
  { s with refunds := .inr coerced, valid_refunds := some (refundsValid coerced) }

/-- `DataCleaner.clean_all_data`: the five cleaners in source order. -/
def clean_all_data (s : CleanerState) : CleanerState :=
  cleanRefundsStep (cleanShipmentsStep (cleanOrdersStep (cleanProductsStep
    (cleanCustomersStep s))))

/-- Number of rows of a stored raw dataset. -/
def rawCount {σ ν : Type} : List σ ⊕ List ν → Nat
  | .inl l => l.length
  | .inr l => l.length

/-- The `data_quality_metrics` block (field names as emitted, including
`invalid_returns_records` for refunds). -/
structure DataQualityMetrics where
  invalid_customers_records : ℤ
  invalid_products_records : ℤ
  invalid_orders_records : ℤ
  invalid_shipments_records : ℤ
  invalid_returns_records : ℤ
deriving DecidableEq, Repr

/-- An entry of `top_5_customers_by_total_spend`. -/
structure SpendEntry where
  customer_id : List Char
  name : List Char
  total_spent : PyFloat
deriving DecidableEq, Repr

/-- An entry of `top_5_products_by_revenue`. -/
structure RevenueEntry where
  product_id : List Char
  name : List Char
  total_revenue : PyFloat
deriving DecidableEq, Repr

/-- An entry of `shipping_performance_by_carrier`. -/
structure CarrierPerf where
  carrier : List Char
  total_shipments : Nat
  on_time_deliveries : Nat
  delayed_shipments : Nat
  undelivered_shipments : Nat
deriving DecidableEq, Repr

/-- An entry of `refund_reason_analysis`. -/
structure ReasonEntry where
  reason : List Char
  total_returns : Nat
  total_refund_amount : PyFloat
deriving DecidableEq, Repr

/-- `MetricsCalculator.calculate_top_customers`: inner merge of cleaned
orders with cleaned customers on `customer_id = id` (left order preserved),
group by `(customer_id, name)` (keys sorted), sum `quantity`, take the 5
largest. -/
def calculate_top_customers (vo : List OrderRowN) (vc : List CustomerRow) :
    List SpendEntry :=
  let merged := vo.flatMap fun o =>
    (vc.filter fun c => decide (c.id = o.customer_id)).map fun c => (o, c)
  let entries := (groupBy pairLe (fun oc => (oc.1.customer_id, oc.2.name)) merged).map
    fun g =>
      ({ customer_id := g.fst.fst
         name := g.fst.snd
         total_spent := skipnaSum (g.snd.map fun oc => oc.1.quantity) } : SpendEntry)
  nlargestBy (·.total_spent) 5 entries

/-- `MetricsCalculator.calculate_top_products`: merge cleaned orders with
cleaned products on `product_id = id`, `revenue = quantity * price`, group
by `(product_id, name)`, sum revenue, take the 5 largest. -/
def calculate_top_products (vo : List OrderRowN) (vp : List ProductRowN) :
    List RevenueEntry :=
  let merged := vo.flatMap fun o =>
    (vp.filter fun p => decide (p.id = o.product_id)).map fun p => (o, p)
  let entries := (groupBy pairLe (fun op => (op.1.product_id, op.2.name)) merged).map
    fun g =>
      ({ product_id := g.fst.fst
         name := g.fst.snd
         total_revenue := skipnaSum
           (g.snd.map fun op => PyFloat.mul op.1.quantity op.2.price) } : RevenueEntry)
  nlargestBy (·.total_revenue) 5 entries

/-- `MetricsCalculator.calculate_shipping_performance`: group cleaned
shipments by carrier; count all, `Delivered`, `Delayed` and `Unknown` rows. -/
def calculate_shipping_performance (vs : List ShipmentRow) : List CarrierPerf :=
  (groupBy lexLe (·.carrier) vs).map fun g =>
    { carrier := g.1,
      total_shipments := g.2.length,
      on_time_deliveries := (g.2.filter fun r => decide (r.status = chars "Delivered")).length,
      delayed_shipments := (g.2.filter fun r => decide (r.status = chars "Delayed")).length,
      undelivered_shipments := (g.2.filter fun r => decide (r.status = chars "Unknown")).length }

/-- `MetricsCalculator.calculate_refund_analysis`: group cleaned refunds by
reason; count rows and sum `refund_amount`. -/
def calculate_refund_analysis (vr : List RefundRowN) : List ReasonEntry :=
  (groupBy lexLe (·.reason) vr).map fun g =>
    { reason := g.1,
      total_returns := g.2.length,
      total_refund_amount := skipnaSum (g.2.map (·.refund_amount)) }

/-- The report structure assembled by `calculate_all_metrics`. -/
structure Report where
  valid_names : List (List Char × List Char)
  data_quality_metrics : DataQualityMetrics
  top_5_customers_by_total_spend : List SpendEntry
  top_5_products_by_revenue : List RevenueEntry
  shipping_performance_by_carrier : List CarrierPerf
  refund_reason_analysis : List ReasonEntry
deriving DecidableEq, Repr

/-- `MetricsCalculator.calculate_all_metrics`; `none` models the `TypeError`
Python would raise if some dataset had not been cleaned (`len(None)`). -/
def calculate_all_metrics (s : CleanerState) : Option Report :=
  match s.valid_customers, s.valid_products, s.valid_orders,
      s.valid_shipments, s.valid_refunds with
  | some vc, some vp, some vo, some vs, some vr =>
    some { valid_names := vc.map fun c => (c.id, c.name)
           data_quality_metrics :=
             { invalid_customers_records := (s.customers.length : ℤ) - vc.length
               invalid_products_records := (rawCount s.products : ℤ) - vp.length
               invalid_orders_records := (rawCount s.orders : ℤ) - vo.length
               invalid_shipments_records := (s.shipments.length : ℤ) - vs.length
               invalid_returns_records := (rawCount s.refunds : ℤ) - vr.length }
           top_5_customers_by_total_spend := calculate_top_customers vo vc
           top_5_products_by_revenue := calculate_top_products vo vp
           shipping_performance_by_carrier := calculate_shipping_performance vs
           refund_reason_analysis := calculate_refund_analysis vr }
  | _, _, _, _, _ => none

/-- A freshly constructed `DataCleaner`: raw datasets as loaded, `valid_*`
attributes unset. -/
def initState (cs : List CustomerRow) (ps : List ProductRowS)
    (os : List OrderRowS) (shs : List ShipmentRow) (rs : List RefundRowS) :
    CleanerState :=
  { customers := cs, products := .inl ps, orders := .inl os,
    shipments := shs, refunds := .inl rs }

/-- `main` of `src/v1/ETL_pipeline.py` up to the report value: construct the
cleaner from the loaded datasets, clean everything, compute all metrics. -/
def runPipeline (cs : List CustomerRow) (ps : List ProductRowS)
    (os : List OrderRowS) (shs : List ShipmentRow) (rs : List RefundRowS) :
    Option Report :=
  calculate_all_metrics (clean_all_data (initState cs ps os shs rs))

end V1

namespace CDC

/-- A row of `shipments.csv` as read by `src/Class_data_clean.py` (cells are
the CSV text; a missing cell reads as the text `nan` after `astype(str)`). -/
structure ShipmentRow where
  id : List Char
  order_id : List Char
  carrier : List Char
  status : List Char
  shipment_date : List Char
  delivery_date : List Char
deriving DecidableEq, Repr

/-- A row of `refunds.csv` as read by `src/Class_data_clean.py`. -/
structure RefundRow where
  id : List Char
  order_id : List Char
  product_id : List Char
  reason : List Char
  refund_amount : List Char
deriving DecidableEq, Repr

/-- `clean_common` on one cell: `astype(str).str.strip()` then
`re.sub(r'[^a-zA-Z0-9:/ -]', '', x)`. -/
def clean_common_cell (cs : List Char) : List Char :=
  (pyStrip cs).filter fun c =>
    c.isAlphanum || c = ':' || c = '/' || c = ' ' || c = '-'

/-- `clean_common` applied to every column of a shipments row. -/
def clean_common_shipment (r : ShipmentRow) : ShipmentRow :=
  { id := clean_common_cell r.id
    order_id := clean_common_cell r.order_id
    carrier := clean_common_cell r.carrier
    status := clean_common_cell r.status
    shipment_date := clean_common_cell r.shipment_date
    delivery_date := clean_common_cell r.delivery_date }

/-- `clean_common` applied to every column of a refunds row. -/
def clean_common_refund (r : RefundRow) : RefundRow :=
  { id := clean_common_cell r.id
    order_id := clean_common_cell r.order_id
    product_id := clean_common_cell r.product_id
    reason := clean_common_cell r.reason
    refund_amount := clean_common_cell r.refund_amount }

/-- The `carrier_mapping` lookup of `clean_shipments`:
`str.lower().map(mapping).fillna(original)`. -/
def mapCarrier (c : List Char) : List Char :=
  let low := c.map Char.toLower
  if low = chars "fedex" then chars "FedEx"
  else if low = chars "ups" then chars "UPS"
  else if low = chars "dhl" then chars "DHL"
  else if low = chars "usps" then chars "USPS"
  else c

/-- The date-column cleanup of `clean_shipments`: keep `[0-9:/ -]` characters
then drop the last 3 characters when longer than 10. -/
def cleanDateCell (cs : List Char) : List Char :=
  let k := cs.filter fun c => c.isDigit || c = ':' || c = '/' || c = ' ' || c = '-'
  if 10 < k.length then k.take (k.length - 3) else k

/-- The stages of `clean_shipments` before its deduplication: common
cleanup, carrier standardization with leading-hyphen removal, date-column
cleanup, UUID filter. -/
def shipmentsPreDedup (df : List ShipmentRow) : List ShipmentRow :=
  let df1 := df.map clean_common_shipment
  let df2 := df1.map fun r =>
    { r with carrier := (mapCarrier r.carrier).dropWhile fun c => decide (c = '-') }
  let df3 := df2.map fun r =>
    { r with shipment_date := cleanDateCell r.shipment_date
             delivery_date := cleanDateCell r.delivery_date }
  df3.filter fun r => is_valid_uuid r.id && is_valid_uuid r.order_id

/-- `clean_shipments` of `src/Class_data_clean.py`: the pre-deduplication
stages followed by `drop_duplicates(subset='id')`. -/
def clean_shipments (df : List ShipmentRow) : List ShipmentRow :=
  drop_duplicates (·.id) (shipmentsPreDedup df)

/-- The trailing-character removal `re.sub(r'[^0-9.]$', '', x)` applied to
`refund_amount`: drop the final character when it is not a digit or dot. -/
def subTrailing (cs : List Char) : List Char :=
  match cs.getLast? with
  | some c => if c.isDigit || c = '.' then cs else cs.dropLast
  | none => cs

/-- The float value of a stored `refund_amount`:
`x.replace(',', '').astype(float)`; `none` models `ValueError`. -/
def amountVal? (r : RefundRow) : Option PyFloat :=
  pyParseFloat (r.refund_amount.filter fun c => decide (c ≠ ','))

/-- The `astype(float)` conversion of the whole `refund_amount` column: the
first unparseable cell raises, modelled by `none`. -/
def amountsAll? : List RefundRow → Option (List (RefundRow × PyFloat))
  | [] => some []
  | r :: rest =>
    match amountVal? r, amountsAll? rest with
    | some v, some others => some ((r, v) :: others)
    | _, _ => none

/-- `clean_refunds` of `src/Class_data_clean.py`.  `ordersIds` and
`productsIds` are the `id` columns of the `orders_df` and `products_df`
arguments (in `__main__` these are the raw CSV datasets).  The final
`astype(float)` over the surviving column can raise `ValueError`, modelled
by `Except.error`. -/
def clean_refunds (df : List RefundRow) (ordersIds productsIds : List (List Char)) :
    Except Unit (List RefundRow) :=
  let df1 := df.map clean_common_refund
  let df2 := df1.filter fun r =>
    is_valid_uuid r.id && is_valid_uuid r.order_id && is_valid_uuid r.product_id
  let df3 := df2.filter fun r => decide (r.order_id ∈ ordersIds)
  let df4 := df3.filter fun r => decide (r.product_id ∈ productsIds)
  let df5 := df4.filter fun r => decide (pyStrip r.reason ≠ [])
  let df6 := df5.map fun r => { r with refund_amount := subTrailing r.refund_amount }
  match amountsAll? df6 with
  | none => .error ()
  | some pairs => .ok ((pairs.filter fun p => p.snd.gtZero).map (·.fst))

/-- Division by 100 on a Python float. -/
def div100 : PyFloat → PyFloat
  | .num q => .num (mkRat q.num (q.den * 100))
  | x => x

/-- The `__main__` unit correction of `src/Class_data_clean.py`: after
cleaning, `refund_amount.astype(float) / 100` applied once per surviving row
(before saving the CSV; no aggregation is computed there). -/
def mainScaledAmounts (cleaned : List RefundRow) : Option (List PyFloat) :=
  (amountsAll? cleaned).map fun pairs => pairs.map fun p => div100 p.snd

end CDC

namespace SR

/-- A row of `refunds.csv` as used by `src/Shipment_refund.py` (only the
`reason` and `refund_amount` columns are read). -/
structure RefundRow where
  reason : List Char
  refund_amount : List Char
deriving DecidableEq, Repr

/-- An entry of `refund_reason_analysis`. -/
structure ReasonEntry where
  reason : List Char
  total_returns : Nat
  total_refund_amount : PyFloat
deriving DecidableEq, Repr

/-- The refund analysis of `src/Shipment_refund.py`: coerce `refund_amount`
to numeric (`errors='coerce'`), group the otherwise-raw rows by `reason`,
count parseable amounts (`('refund_amount', 'count')`) and sum them, then
keep the top 5 reasons by `total_refund_amount`. -/
def refund_reason_analysis (df : List RefundRow) : List ReasonEntry :=
  let dfn := df.map fun r => (r.reason, to_numeric r.refund_amount)
  let entries := (groupBy lexLe Prod.fst dfn).map fun g =>
    ({ reason := g.fst
       total_returns := skipnaCount (g.snd.map Prod.snd)
       total_refund_amount := skipnaSum (g.snd.map Prod.snd) } : ReasonEntry)
  nlargestBy (·.total_refund_amount) 5 entries

end SR


/-- Rejoin the pieces produced by `splitDash`, reinserting the hyphens. -/
def joinDash : List (List Char) → List Char
  | [] => []
  | [g] => g
  | g :: gs => g ++ '-' :: joinDash gs

/-- A concrete valid UUID used in scenario theorems. -/
def uuidA : List Char := chars "11111111-1111-1111-1111-111111111111"

/-- A second concrete valid UUID. -/
def uuidB : List Char := chars "22222222-2222-2222-2222-222222222222"

/-- A third concrete valid UUID. -/
def uuidC : List Char := chars "33333333-3333-3333-3333-333333333333"

/-- A raw refund row with valid identifiers, a reason that is blank after
trimming, and an `order_id`/`product_id` referencing nothing. -/
def refundNoRef : V1.RefundRowS :=
  { id := uuidA, order_id := uuidB, product_id := uuidC,
    reason := chars "   ", refund_amount := chars "5" }

/-- A raw product row whose name contains a special character. -/
def productBang : V1.ProductRowS :=
  { id := uuidA, name := chars "Chair!", category := chars "Furniture",
    price := chars "5", stock := chars "3" }

/-- A raw product row whose name consists only of special characters. -/
def productBangOnly : V1.ProductRowS :=
  { productBang with name := chars "!!!" }

/-- A refund row for the standalone cleaner that passes every check. -/
def refundDup1 : CDC.RefundRow :=
  { id := uuidA, order_id := uuidB, product_id := uuidC,
    reason := chars "Damaged", refund_amount := chars "50" }

/-- A second refund row sharing `refundDup1`'s id but differing otherwise. -/
def refundDup2 : CDC.RefundRow :=
  { refundDup1 with reason := chars "Broken", refund_amount := chars "60" }

/-- A refund row whose `refund_amount` does not parse as a float even after
the trailing-character removal. -/
def refundBadAmount : CDC.RefundRow :=
  { refundDup1 with refund_amount := chars "abc" }

/-- A class-based-pipeline shipment row whose status is `"  Delivered!! "`. -/
def shipDelivV1 : V1.ShipmentRow :=
  { id := uuidA, order_id := uuidB, carrier := chars "FedEx",
    status := chars "  Delivered!! " }

/-- The same shipment row as read by the standalone cleaning script. -/
def shipDelivCDC : CDC.ShipmentRow :=
  { id := uuidA, order_id := uuidB, carrier := chars "FedEx",
    status := chars "  Delivered!! ", shipment_date := chars "2023-01-02",
    delivery_date := chars "2023-01-05" }

/-- A refunds row as seen by `src/Shipment_refund.py`. -/
def srRefund : SR.RefundRow :=
  { reason := chars "Damaged", refund_amount := chars "50" }

/-- A refund row with an invalid `id`, which cleaning would discard but the
metrics script never checks. -/
def cdcRefundBadId : CDC.RefundRow :=
  { refundDup1 with id := chars "notvalid" }

/-- A customer row passing validation. -/
def custA : V1.CustomerRow :=
  { id := uuidA, name := chars "Alice", email := chars "a@x.com",
    phone := chars "" }

/-- A second valid customer row sharing `custA`'s id. -/
def custA2 : V1.CustomerRow :=
  { custA with name := chars "Alicia" }

/-- A fresh pipeline state over empty datasets. -/
def stateEmptyA : V1.CleanerState := V1.initState [] [] [] [] []

/-- A stale customer row used to pre-populate `valid_customers`. -/
def ghostCustomer : V1.CustomerRow :=
  { id := uuidA, name := chars "Ghost", email := chars "", phone := chars "" }

/-- The same raw datasets with a stale `valid_customers` attribute set. -/
def stateEmptyB : V1.CleanerState :=
  { V1.initState [] [] [] [] [] with valid_customers := some [ghostCustomer] }

/-! ### Helper lemmas -/

theorem qAdd_eq (a b : ℚ) : qAdd a b = a + b := by
  have ha : ((a.den : ℚ)) ≠ 0 := by exact_mod_cast a.den_nz
  have hb : ((b.den : ℚ)) ≠ 0 := by exact_mod_cast b.den_nz
  rw [qAdd, Rat.mkRat_eq_div]
  push_cast
  conv_rhs => rw [← Rat.num_div_den a, ← Rat.num_div_den b]
  field_simp

theorem qMul_eq (a b : ℚ) : qMul a b = a * b := by
  have ha : ((a.den : ℚ)) ≠ 0 := by exact_mod_cast a.den_nz
  have hb : ((b.den : ℚ)) ≠ 0 := by exact_mod_cast b.den_nz
  rw [qMul, Rat.mkRat_eq_div]
  push_cast
  conv_rhs => rw [← Rat.num_div_den a, ← Rat.num_div_den b]
  field_simp

section DedupLemmas

variable {α : Type} {K : Type} [DecidableEq K] {key : α → K}

theorem dedupByGo_sublist (key : α → K) :
    ∀ (l : List α) (seen : List K), (dedupByGo key seen l).Sublist l
  | [], _ => List.Sublist.slnil
  | r :: rest, seen => by
    simp only [dedupByGo]
    split
    · exact (dedupByGo_sublist key rest seen).cons r
    · exact (dedupByGo_sublist key rest _).cons₂ r

theorem drop_duplicates_sublist (key : α → K) (l : List α) :
    (drop_duplicates key l).Sublist l :=
  dedupByGo_sublist key l []

theorem dedupByGo_mem_spec :
    ∀ {l : List α} {seen : List K} {y : α}, y ∈ dedupByGo key seen l →
      key y ∉ seen ∧ l.find? (fun x => decide (key x = key y)) = some y := by
  intro l
  induction l with
  | nil => intro seen y h; simp [dedupByGo] at h
  | cons r rest ih =>
    intro seen y h
    simp only [dedupByGo] at h
    by_cases hr : key r ∈ seen
    · rw [if_pos hr] at h
      obtain ⟨hns, hf⟩ := ih h
      have hne : key r ≠ key y := fun he => hns (he ▸ hr)
      refine ⟨hns, ?_⟩
      rw [List.find?_cons_of_neg _ (by simp [hne]), hf]
    · rw [if_neg hr] at h
      rcases List.mem_cons.mp h with rfl | hmem
      · refine ⟨hr, ?_⟩
        rw [List.find?_cons_of_pos _ (by simp)]
      · obtain ⟨hns, hf⟩ := ih hmem
        have hne : key y ≠ key r := fun he => hns (by simp [he])
        have hns2 : key y ∉ seen := fun hc => hns (List.mem_cons_of_mem _ hc)
        refine ⟨hns2, ?_⟩
        rw [List.find?_cons_of_neg _ (by simp; exact fun he => hne he.symm), hf]

theorem drop_duplicates_mem_first {l : List α} {y : α}
    (h : y ∈ drop_duplicates key l) :
    l.find? (fun x => decide (key x = key y)) = some y :=
  (dedupByGo_mem_spec h).2

theorem dedupByGo_keys_nodup :
    ∀ (l : List α) (seen : List K), ((dedupByGo key seen l).map key).Nodup := by
  intro l
  induction l with
  | nil => intro seen; simp [dedupByGo]
  | cons r rest ih =>
    intro seen
    simp only [dedupByGo]
    split
    · exact ih seen
    · simp only [List.map_cons, List.nodup_cons]
      refine ⟨?_, ih _⟩
      intro hc
      rcases List.mem_map.mp hc with ⟨y, hy, hky⟩
      exact (dedupByGo_mem_spec hy).1 (by simp [hky])

theorem drop_duplicates_keys_nodup (key : α → K) (l : List α) :
    ((drop_duplicates key l).map key).Nodup :=
  dedupByGo_keys_nodup l []

theorem dedupByGo_keys_complete :
    ∀ {l : List α} {seen : List K} {x : α}, x ∈ l → key x ∉ seen →
      key x ∈ (dedupByGo key seen l).map key := by
  intro l
  induction l with
  | nil => intro seen x h; simp at h
  | cons r rest ih =>
    intro seen x hx hns
    simp only [dedupByGo]
    rcases List.mem_cons.mp hx with rfl | hmem
    · rw [if_neg hns]
      simp
    · by_cases hr : key r ∈ seen
      · rw [if_pos hr]; exact ih hmem hns
      · rw [if_neg hr]
        by_cases he : key x = key r
        · simp [he]
        · simp only [List.map_cons, List.mem_cons]
          exact Or.inr (ih hmem (by simp [he, hns]))

theorem drop_duplicates_keys_complete {l : List α} {x : α} (hx : x ∈ l) :
    key x ∈ (drop_duplicates key l).map key :=
  dedupByGo_keys_complete hx (List.not_mem_nil _)

end DedupLemmas

theorem PyFloat.leB_total (a b : PyFloat) : a.leB b = true ∨ b.leB a = true := by
  cases a with
  | num x =>
    cases b with
    | num y =>
      rcases le_total x y with h | h
      · exact Or.inl (by simp [PyFloat.leB, h])
      · exact Or.inr (by simp [PyFloat.leB, h])
    | nan => exact Or.inr rfl
    | inf => exact Or.inl rfl
    | ninf => exact Or.inr rfl
  | nan => exact Or.inl (by cases b <;> rfl)
  | inf =>
    cases b with
    | num y => exact Or.inr rfl
    | nan => exact Or.inr rfl
    | inf => exact Or.inl rfl
    | ninf => exact Or.inr rfl
  | ninf =>
    cases b with
    | nan => exact Or.inr rfl
    | num y => exact Or.inl rfl
    | inf => exact Or.inl rfl
    | ninf => exact Or.inl rfl

theorem PyFloat.leB_trans {a b c : PyFloat} (h1 : a.leB b = true)
    (h2 : b.leB c = true) : a.leB c = true := by
  cases a <;> cases b <;> cases c <;>
    simp only [PyFloat.leB, decide_eq_true_eq] at * <;>
    first
      | trivial
      | exact le_trans h1 h2

theorem mem_sortWith {le : α → α → Bool} {l : List α} {x : α} :
    x ∈ sortWith le l ↔ x ∈ l :=
  (List.perm_insertionSort _ l).mem_iff

theorem sortWith_sorted {le : α → α → Bool}
    (htot : ∀ a b, le a b = true ∨ le b a = true)
    (htr : ∀ {a b c}, le a b = true → le b c = true → le a c = true)
    (l : List α) : (sortWith le l).Pairwise (fun a b => le a b = true) := by
  haveI : IsTotal α (fun a b => le a b = true) := ⟨htot⟩
  haveI : IsTrans α (fun a b => le a b = true) := ⟨fun _ _ _ => htr⟩
  exact List.sorted_insertionSort _ l

theorem nlargestBy_length_le (val : α → PyFloat) (n : Nat) (l : List α) :
    (nlargestBy val n l).length ≤ n := by
  rw [nlargestBy, List.length_take]
  exact min_le_left _ _

theorem mem_nlargestBy {val : α → PyFloat} {n : Nat} {l : List α} {x : α}
    (h : x ∈ nlargestBy val n l) : x ∈ l :=
  mem_sortWith.mp (List.take_subset _ _ h)

theorem nlargestBy_sorted (val : α → PyFloat) (n : Nat) (l : List α) :
    (nlargestBy val n l).Pairwise
      (fun a b => PyFloat.leB (val b) (val a) = true) :=
  List.Pairwise.sublist (List.take_sublist n _)
    (sortWith_sorted (fun a b => PyFloat.leB_total (val b) (val a))
      (fun h1 h2 => PyFloat.leB_trans h2 h1) l)

theorem mem_groupBy {α : Type} {K : Type} [DecidableEq K] {le : K → K → Bool}
    {key : α → K} {l : List α} {e : K × List α} (h : e ∈ groupBy le key l) :
    e.2 = l.filter (fun a => decide (key a = e.1)) ∧ e.1 ∈ l.map key := by
  rcases List.mem_map.mp h with ⟨k, hk, rfl⟩
  exact ⟨rfl, (dedupByGo_sublist id (l.map key) []).subset (mem_sortWith.mp hk)⟩

section UuidLemmas

theorem isHexDig_range {c : Char} (h : isHexDig c = true) :
    (48 ≤ c.toNat ∧ c.toNat ≤ 57) ∨ (97 ≤ c.toNat ∧ c.toNat ≤ 102) ∨
      (65 ≤ c.toNat ∧ c.toNat ≤ 70) := by
  unfold isHexDig hexVal? at h
  split_ifs at h with h1 h2 h3
  · exact Or.inl h1
  · exact Or.inr (Or.inl h2)
  · exact Or.inr (Or.inr h3)
  · simp at h

theorem isHexDig_ne {c : Char} (h : isHexDig c = true) (d : Char)
    (hd : ¬((48 ≤ d.toNat ∧ d.toNat ≤ 57) ∨ (97 ≤ d.toNat ∧ d.toNat ≤ 102) ∨
      (65 ≤ d.toNat ∧ d.toNat ≤ 70))) : c ≠ d := by
  intro he
  exact hd (he ▸ isHexDig_range h)

theorem isHexDig_not_brace {c : Char} (h : isHexDig c = true) :
    isBrace c = false := by
  simp only [isBrace, Bool.or_eq_false_iff, decide_eq_false_iff_not]
  exact ⟨isHexDig_ne h _ (by decide), isHexDig_ne h _ (by decide)⟩

theorem isHexDig_not_ws {c : Char} (h : isHexDig c = true) :
    isPyWs c = false := by
  simp only [isPyWs, Bool.or_eq_false_iff, decide_eq_false_iff_not]
  exact ⟨⟨⟨⟨⟨isHexDig_ne h _ (by decide), isHexDig_ne h _ (by decide)⟩,
    isHexDig_ne h _ (by decide)⟩, isHexDig_ne h _ (by decide)⟩,
    isHexDig_ne h _ (by decide)⟩, isHexDig_ne h _ (by decide)⟩

theorem dropWhile_eq_self_of_all {p : Char → Bool} :
    ∀ {l : List Char}, (∀ c ∈ l, p c = false) → l.dropWhile p = l := by
  intro l h
  cases l with
  | nil => rfl
  | cons c rest => simp [List.dropWhile_cons, h c (List.mem_cons_self c rest)]

theorem pyStrip_eq_self {l : List Char} (h : ∀ c ∈ l, isPyWs c = false) :
    pyStrip l = l := by
  unfold pyStrip
  rw [dropWhile_eq_self_of_all h,
    dropWhile_eq_self_of_all (fun c hc => h c (List.mem_reverse.mp hc)),
    List.reverse_reverse]

theorem stripOccGo_eq_self {pat : List Char} (hc : ':' ∈ pat) :
    ∀ {cs : List Char}, ':' ∉ cs → stripOccGo pat cs 0 = cs := by
  intro cs
  induction cs with
  | nil => intro _; rfl
  | cons c rest ih =>
    intro h
    have hp : pat.isPrefixOf (c :: rest) = false := by
      cases hpe : pat.isPrefixOf (c :: rest) with
      | false => rfl
      | true =>
        exact absurd ((List.isPrefixOf_iff_prefix.mp hpe).subset hc) h
    simp only [stripOccGo, hp, Bool.false_eq_true, if_false]
    rw [ih fun hm => h (List.mem_cons_of_mem _ hm)]

theorem splitDash_ne_nil : ∀ cs : List Char, splitDash cs ≠ []
  | [] => by simp [splitDash]
  | c :: rest => by
    simp only [splitDash]
    split
    · simp
    · split <;> simp

theorem joinDash_cons (c : Char) (g : List Char) (gs : List (List Char)) :
    joinDash ((c :: g) :: gs) = c :: joinDash (g :: gs) := by
  cases gs <;> simp [joinDash]

theorem join_splitDash : ∀ cs : List Char, joinDash (splitDash cs) = cs
  | [] => rfl
  | c :: rest => by
    have IH := join_splitDash rest
    obtain ⟨g, gs, hg⟩ : ∃ g gs, splitDash rest = g :: gs := by
      cases hsp : splitDash rest with
      | nil => exact absurd hsp (splitDash_ne_nil rest)
      | cons g gs => exact ⟨g, gs, rfl⟩
    rw [hg] at IH
    simp only [splitDash]
    by_cases hc : c = '-'
    · rw [if_pos hc, hg, hc]
      show joinDash ([] :: g :: gs) = '-' :: rest
      rw [show joinDash ([] :: g :: gs) = [] ++ '-' :: joinDash (g :: gs) from rfl]
      rw [IH]
      rfl
    · rw [if_neg hc, hg]
      show joinDash ((c :: g) :: gs) = c :: rest
      rw [joinDash_cons, IH]

theorem splitDash_no_dash :
    ∀ (cs : List Char) (g : List Char), g ∈ splitDash cs → '-' ∉ g
  | [], g, hg => by
    simp [splitDash] at hg
    simp [hg]
  | c :: rest, g, hg => by
    simp only [splitDash] at hg
    by_cases hc : c = '-'
    · rw [if_pos hc] at hg
      rcases List.mem_cons.mp hg with rfl | hmem
      · simp
      · exact splitDash_no_dash rest g hmem
    · rw [if_neg hc] at hg
      obtain ⟨g0, gs, hgt⟩ : ∃ g0 gs, splitDash rest = g0 :: gs := by
        cases hsp : splitDash rest with
        | nil => exact absurd hsp (splitDash_ne_nil rest)
        | cons g0 gs => exact ⟨g0, gs, rfl⟩
      rw [hgt] at hg
      rcases List.mem_cons.mp hg with rfl | hmem
      · intro hmm
        rcases List.mem_cons.mp hmm with he | hmem2
        · exact hc he.symm
        · exact splitDash_no_dash rest g0 (by rw [hgt]; exact List.mem_cons_self _ _) hmem2
      · exact splitDash_no_dash rest g (by rw [hgt]; exact List.mem_cons_of_mem _ hmem)

theorem hexVal?_lt {c : Char} {d : Nat} (h : hexVal? c = some d) : d < 16 := by
  unfold hexVal? at h
  split_ifs at h with h1 h2 h3 <;> simp at h <;> omega

theorem isHexDig_val {c : Char} (h : isHexDig c = true) :
    ∃ d, hexVal? c = some d ∧ d < 16 := by
  unfold isHexDig at h
  cases hv : hexVal? c with
  | none => rw [hv] at h; simp at h
  | some d => exact ⟨d, rfl, hexVal?_lt hv⟩

theorem hexTail_all :
    ∀ (rest : List Char), (∀ c ∈ rest, isHexDig c = true) → ∀ acc,
      ∃ m, hexTail acc rest = some m ∧ m < 16 ^ rest.length * (acc + 1) := by
  intro rest
  induction rest with
  | nil =>
    intro _ acc
    exact ⟨acc, rfl, by simp⟩
  | cons c t ih =>
    intro h acc
    have hc := h c (List.mem_cons_self c t)
    have hcu : c ≠ '_' := isHexDig_ne hc _ (by decide)
    obtain ⟨d, hd, hdlt⟩ := isHexDig_val hc
    obtain ⟨m, hm, hlt⟩ := ih (fun x hx => h x (List.mem_cons_of_mem _ hx)) (acc * 16 + d)
    refine ⟨m, by rw [hexTail.eq_def]; simp [hcu, hd, hm], ?_⟩
    calc m < 16 ^ t.length * (acc * 16 + d + 1) := hlt
      _ ≤ 16 ^ t.length * (16 * (acc + 1)) := by
          apply Nat.mul_le_mul_left
          omega
      _ = 16 ^ (c :: t).length * (acc + 1) := by
          simp [List.length_cons, Nat.pow_succ]
          ring

theorem hexBody_all {h : List Char} (hne : h ≠ [])
    (hall : ∀ c ∈ h, isHexDig c = true) :
    ∃ m, hexBody h = some m ∧ m < 16 ^ h.length := by
  cases h with
  | nil => exact absurd rfl hne
  | cons c t =>
    obtain ⟨d, hd, hdlt⟩ := isHexDig_val (hall c (List.mem_cons_self c t))
    obtain ⟨m, hm, hlt⟩ := hexTail_all t (fun x hx => hall x (List.mem_cons_of_mem _ hx)) d
    refine ⟨m, by simp [hexBody, hd, hm], ?_⟩
    calc m < 16 ^ t.length * (d + 1) := hlt
      _ ≤ 16 ^ t.length * 16 := Nat.mul_le_mul_left _ (by omega)
      _ = 16 ^ (c :: t).length := by simp [List.length_cons, Nat.pow_succ]

theorem pyIntHex_all {h : List Char} (hne : h ≠ [])
    (hall : ∀ c ∈ h, isHexDig c = true) :
    ∃ n : ℕ, pyIntHex? h = some (Int.ofNat n) ∧ n < 16 ^ h.length := by
  have hstrip : pyStrip h = h :=
    pyStrip_eq_self (fun c hc => isHexDig_not_ws (hall c hc))
  cases h with
  | nil => exact absurd rfl hne
  | cons c t =>
    have hc := hall c (List.mem_cons_self c t)
    have hcp : c ≠ '+' := isHexDig_ne hc _ (by decide)
    have hcm : c ≠ '-' := isHexDig_ne hc _ (by decide)
    have hns : ∃ m, hexNoSign (c :: t) = some m ∧ m < 16 ^ (c :: t).length := by
      cases t with
      | nil =>
        obtain ⟨m, hm, hlt⟩ := hexBody_all (h := [c]) (by simp) (by simpa using hc)
        exact ⟨m, by simpa [hexNoSign] using hm, by simpa using hlt⟩
      | cons c1 r =>
        have hc1 := hall c1 (by simp)
        have hx : ¬(c = '0' ∧ (c1 = 'x' ∨ c1 = 'X')) := by
          rintro ⟨_, h1 | h1⟩
          · exact isHexDig_ne hc1 _ (by decide) h1
          · exact isHexDig_ne hc1 _ (by decide) h1
        obtain ⟨m, hm, hlt⟩ := hexBody_all (h := c :: c1 :: r) (by simp) hall
        exact ⟨m, by simp [hexNoSign, hx, hm], hlt⟩
    obtain ⟨m, hm, hlt⟩ := hns
    refine ⟨m, ?_, hlt⟩
    simp [pyIntHex?, hstrip, hcp, hcm, hm]

end UuidLemmas

theorem isCanonicalUUID_elim {cs : List Char} (h : isCanonicalUUID cs = true) :
    ∃ a b c d e : List Char,
      splitDash cs = [a, b, c, d, e] ∧
      a.length = 8 ∧ b.length = 4 ∧ c.length = 4 ∧ d.length = 4 ∧
      e.length = 12 ∧
      (∀ x ∈ a, isHexDig x = true) ∧ (∀ x ∈ b, isHexDig x = true) ∧
      (∀ x ∈ c, isHexDig x = true) ∧ (∀ x ∈ d, isHexDig x = true) ∧
      (∀ x ∈ e, isHexDig x = true) := by
  unfold isCanonicalUUID at h
  rcases hsp : splitDash cs with _ | ⟨a, _ | ⟨b, _ | ⟨c, _ | ⟨d, _ | ⟨e, _ | ⟨f, tl⟩⟩⟩⟩⟩⟩ <;>
    rw [hsp] at h <;>
    simp only [Bool.and_eq_true, decide_eq_true_eq, List.all_eq_true,
      Bool.false_eq_true] at h
  case cons.cons.cons.cons.cons.nil =>
    obtain ⟨⟨⟨⟨⟨⟨⟨⟨⟨h8, h4b⟩, h4c⟩, h4d⟩, h12⟩, ha⟩, hb⟩, hc⟩, hd⟩, he⟩ := h
    exact ⟨a, b, c, d, e, rfl, h8, h4b, h4c, h4d, h12, ha, hb, hc, hd, he⟩

/-! ### Claim theorems -/

/-- C5 (counterexample): the identifier validator is not equivalent to the
canonical 8-4-4-4-12 grouping — `uuid.UUID` also accepts the same 32
hexadecimal digits written without hyphens, which is not canonical. -/
theorem uuid_accepts_unhyphenated :
    is_valid_uuid (chars "123e4567e89b12d3a456426614174000") = true ∧
    isCanonicalUUID (chars "123e4567e89b12d3a456426614174000") = false := by
  constructor <;> decide

/-- C5 (amended): the identifier validator accepts every canonical
8-4-4-4-12 hexadecimal UUID (case-insensitive); acceptance is however
strictly broader (see the counterexample), matching `uuid.UUID`'s
normalization: remove `urn:`/`uuid:` substrings, strip braces, delete
hyphens, then require 32 characters parsing as a hexadecimal integer below
`2^128`. -/
theorem uuid_accepts_canonical (cs : List Char)
    (h : isCanonicalUUID cs = true) : is_valid_uuid cs = true := by
  obtain ⟨a, b, c, d, e, hsp, hla, hlb, hlc, hld, hle, hha, hhb, hhc, hhd, hhe⟩ :=
    isCanonicalUUID_elim h
  have hjoin : joinDash [a, b, c, d, e] =
      a ++ '-' :: (b ++ '-' :: (c ++ '-' :: (d ++ '-' :: e))) := rfl
  have hcs : cs = a ++ '-' :: (b ++ '-' :: (c ++ '-' :: (d ++ '-' :: e))) := by
    have hj := join_splitDash cs
    rw [hsp, hjoin] at hj
    exact hj.symm
  have hmem : ∀ x ∈ cs, isHexDig x = true ∨ x = '-' := by
    intro x hx
    rw [hcs] at hx
    simp only [List.mem_append, List.mem_cons] at hx
    rcases hx with hx | hx | hx | hx | hx | hx | hx | hx | hx
    exacts [Or.inl (hha x hx), Or.inr hx, Or.inl (hhb x hx), Or.inr hx,
      Or.inl (hhc x hx), Or.inr hx, Or.inl (hhd x hx), Or.inr hx,
      Or.inl (hhe x hx)]
  have hnc : ':' ∉ cs := by
    intro hm
    rcases hmem _ hm with hh | hh
    · exact isHexDig_ne hh ':' (by decide) rfl
    · exact absurd hh (by decide)
  have hnb : ∀ x ∈ cs, isBrace x = false := by
    intro x hx
    rcases hmem x hx with hh | rfl
    · exact isHexDig_not_brace hh
    · decide
  have fa : List.filter (fun x => !decide (x = '-')) a = a :=
    List.filter_eq_self.mpr fun x hx => by
      simpa using isHexDig_ne (hha x hx) '-' (by decide)
  have fb : List.filter (fun x => !decide (x = '-')) b = b :=
    List.filter_eq_self.mpr fun x hx => by
      simpa using isHexDig_ne (hhb x hx) '-' (by decide)
  have fc : List.filter (fun x => !decide (x = '-')) c = c :=
    List.filter_eq_self.mpr fun x hx => by
      simpa using isHexDig_ne (hhc x hx) '-' (by decide)
  have fd : List.filter (fun x => !decide (x = '-')) d = d :=
    List.filter_eq_self.mpr fun x hx => by
      simpa using isHexDig_ne (hhd x hx) '-' (by decide)
  have fe : List.filter (fun x => !decide (x = '-')) e = e :=
    List.filter_eq_self.mpr fun x hx => by
      simpa using isHexDig_ne (hhe x hx) '-' (by decide)
  have hnorm : uuidNormalize cs = a ++ (b ++ (c ++ (d ++ e))) := by
    simp only [uuidNormalize, stripOcc]
    rw [stripOccGo_eq_self (by decide) hnc, stripOccGo_eq_self (by decide) hnc,
      dropWhile_eq_self_of_all hnb,
      dropWhile_eq_self_of_all (fun x hx => hnb x (List.mem_reverse.mp hx)),
      List.reverse_reverse]
    conv_lhs => rw [hcs]
    simp [List.filter_append, List.filter_cons, fa, fb, fc, fd, fe]
  have hlen : (uuidNormalize cs).length = 32 := by
    rw [hnorm]
    simp [List.length_append, hla, hlb, hlc, hld, hle]
  have hall2 : ∀ x ∈ uuidNormalize cs, isHexDig x = true := by
    rw [hnorm]
    intro x hx
    simp only [List.mem_append] at hx
    rcases hx with hx | hx | hx | hx | hx
    exacts [hha x hx, hhb x hx, hhc x hx, hhd x hx, hhe x hx]
  have hne : uuidNormalize cs ≠ [] := by
    intro hnil
    rw [hnil] at hlen
    simp at hlen
  obtain ⟨n, hn, hlt⟩ := pyIntHex_all hne hall2
  rw [hlen] at hlt
  have h16 : (16 : ℕ) ^ 32 = 2 ^ 128 := by norm_num
  rw [h16] at hlt
  simp only [is_valid_uuid, hlen, hn]
  simp
  omega

/-- C5 (witness): a concrete canonical UUID is accepted. -/
theorem uuid_accepts_canonical_witness :
    is_valid_uuid (chars "123e4567-e89b-12d3-a456-426614174000") = true :=
  uuid_accepts_canonical _ (by decide)

theorem drop_duplicates_spec {α K : Type} [DecidableEq K] (key : α → K)
    (l : List α) :
    ((drop_duplicates key l).map key).Nodup ∧
    (∀ y ∈ drop_duplicates key l,
      l.find? (fun x => decide (key x = key y)) = some y) ∧
    (∀ x ∈ l, key x ∈ (drop_duplicates key l).map key) :=
  ⟨drop_duplicates_keys_nodup key l, fun _ hy => drop_duplicates_mem_first hy,
    fun _ hx => drop_duplicates_keys_complete hx⟩

theorem amountsAll?_fst :
    ∀ {l : List CDC.RefundRow} {pairs : List (CDC.RefundRow × PyFloat)},
      CDC.amountsAll? l = some pairs → pairs.map Prod.fst = l := by
  intro l
  induction l with
  | nil =>
    intro pairs h
    simp only [CDC.amountsAll?, Option.some.injEq] at h
    simp [← h]
  | cons r rest ih =>
    intro pairs h
    simp only [CDC.amountsAll?] at h
    cases hv : CDC.amountVal? r with
    | none => rw [hv] at h; simp at h
    | some v =>
      rw [hv] at h
      cases ha : CDC.amountsAll? rest with
      | none => rw [ha] at h; simp at h
      | some others =>
        rw [ha] at h
        simp only [Option.some.injEq] at h
        rw [← h]
        simp [ih ha]

/-- C1 (counterexample): in the class-based pipeline a refund survives
cleaning although its `order_id` references no cleaned order and its reason
is blank after trimming — `clean_refunds` there checks neither. -/
theorem v1_refund_skips_referential_checks :
    (V1.clean_all_data (V1.initState [] [] [] [] [refundNoRef])).valid_refunds =
      some [{ id := uuidA
              order_id := uuidB
              product_id := uuidC
              reason := chars "   "
              refund_amount := PyFloat.num 5 }] ∧
    (V1.clean_all_data (V1.initState [] [] [] [] [refundNoRef])).valid_orders =
      some [] ∧
    pyStrip (chars "   ") = [] := by
  refine ⟨by decide, by decide, by decide⟩

/-- C1 (amended): only the standalone variant's `clean_refunds` enforces
referential integrity and a non-blank reason — every refund it returns has
`order_id` among the ids of the orders dataset it was given (the raw orders
file in that script), `product_id` among the given products dataset's ids,
and a reason that is non-empty after trimming.  The class-based variant
performs none of these checks (see the counterexample). -/
theorem cdc_refund_referential_integrity
    (df : List CDC.RefundRow) (ordersIds productsIds : List (List Char))
    (out : List CDC.RefundRow)
    (h : CDC.clean_refunds df ordersIds productsIds = .ok out) :
    ∀ r ∈ out, r.order_id ∈ ordersIds ∧ r.product_id ∈ productsIds ∧
      pyStrip r.reason ≠ [] := by
  intro r hr
  simp only [CDC.clean_refunds] at h
  cases hAll : CDC.amountsAll?
      (List.map
        (fun r => { r with refund_amount := CDC.subTrailing r.refund_amount })
        (List.filter (fun r => decide (pyStrip r.reason ≠ []))
          (List.filter (fun r => decide (r.product_id ∈ productsIds))
            (List.filter (fun r => decide (r.order_id ∈ ordersIds))
              (List.filter
                (fun r => is_valid_uuid r.id && is_valid_uuid r.order_id &&
                  is_valid_uuid r.product_id)
                (List.map CDC.clean_common_refund df)))))) with
  | none => rw [hAll] at h; exact absurd h (by simp)
  | some pairs =>
    rw [hAll] at h
    simp only [Except.ok.injEq] at h
    rw [← h] at hr
    rcases List.mem_map.mp hr with ⟨p, hp, rfl⟩
    have hp2 : p ∈ pairs := List.mem_of_mem_filter hp
    have hp3 : p.fst ∈ pairs.map Prod.fst := List.mem_map_of_mem _ hp2
    rw [amountsAll?_fst hAll] at hp3
    rcases List.mem_map.mp hp3 with ⟨r5, hr5, hre⟩
    have hr4 := List.mem_filter.mp hr5
    have hreason : pyStrip r5.reason ≠ [] := by simpa using hr4.2
    have hr3 := List.mem_filter.mp hr4.1
    have hprod : r5.product_id ∈ productsIds := by simpa using hr3.2
    have hr2 := List.mem_filter.mp hr3.1
    have hord : r5.order_id ∈ ordersIds := by simpa using hr2.2
    rw [← hre]
    exact ⟨hord, hprod, hreason⟩

/-- C1 (witness): the referential-integrity theorem applied to a concrete
cleaning run. -/
theorem cdc_refund_referential_integrity_witness :
    refundDup1.order_id ∈ [uuidB] ∧ refundDup1.product_id ∈ [uuidC] ∧
      pyStrip refundDup1.reason ≠ [] :=
  cdc_refund_referential_integrity [refundDup1] [uuidB] [uuidC] [refundDup1]
    (by rfl) refundDup1 (by decide)

/-- C2 (counterexample): a cleaned Product row need not be a row of the
stored raw dataset — the final special-character strip changes the `name`
of the surviving copy only, so the cleaned row matches no raw row. -/
theorem product_name_strip_breaks_row_subset :
    (V1.clean_products [productBang]).snd =
      [{ id := uuidA
         name := chars "Chair"
         category := chars "Furniture"
         price := PyFloat.num 5
         stock := PyFloat.num 3 }] ∧
    ({ id := uuidA
       name := chars "Chair"
       category := chars "Furniture"
       price := PyFloat.num 5
       stock := PyFloat.num 3 } : V1.ProductRowN) ∉
      (V1.clean_products [productBang]).fst := by
  refine ⟨by decide, by decide⟩

/-- C2 (amended): the reported data-quality metrics equal
`|raw| − |cleaned|` exactly for every entity and are never negative, and
every cleaned dataset arises injectively from rows of the (in-place coerced)
raw dataset — as a sublist for Customers, Orders, Shipments and Refunds, and
as the image of a sublist under the name-normalization pass for Products
(whose cleaned rows may therefore differ from every raw row). -/
theorem quality_metrics_exact_and_nonneg
    (cs : List V1.CustomerRow) (ps : List V1.ProductRowS)
    (os : List V1.OrderRowS) (shs : List V1.ShipmentRow)
    (rs : List V1.RefundRowS) :
    ((V1.runPipeline cs ps os shs rs).map V1.Report.data_quality_metrics) =
      some
        { invalid_customers_records :=
            (cs.length : ℤ) - ((V1.clean_customers cs).length : ℤ)
          invalid_products_records :=
            (ps.length : ℤ) - (((V1.clean_products ps).snd).length : ℤ)
          invalid_orders_records :=
            (os.length : ℤ) - (((V1.clean_orders os).snd).length : ℤ)
          invalid_shipments_records :=
            (shs.length : ℤ) - ((V1.clean_shipments shs).length : ℤ)
          invalid_returns_records :=
            (rs.length : ℤ) - (((V1.clean_refunds rs).snd).length : ℤ) } ∧
    (V1.clean_customers cs).Sublist cs ∧
    (∃ sub : List V1.ProductRowN, List.Sublist sub (ps.map V1.coerceProduct) ∧
      (V1.clean_products ps).snd = sub.map V1.stripProductName) ∧
    ((V1.clean_orders os).snd).Sublist (os.map V1.coerceOrder) ∧
    (V1.clean_shipments shs).Sublist shs ∧
    ((V1.clean_refunds rs).snd).Sublist (rs.map V1.coerceRefund) ∧
    0 ≤ (cs.length : ℤ) - ((V1.clean_customers cs).length : ℤ) ∧
    0 ≤ (ps.length : ℤ) - (((V1.clean_products ps).snd).length : ℤ) ∧
    0 ≤ (os.length : ℤ) - (((V1.clean_orders os).snd).length : ℤ) ∧
    0 ≤ (shs.length : ℤ) - ((V1.clean_shipments shs).length : ℤ) ∧
    0 ≤ (rs.length : ℤ) - (((V1.clean_refunds rs).snd).length : ℤ) := by
  have hcus : (V1.clean_customers cs).Sublist cs :=
    (drop_duplicates_sublist _ _).trans (List.filter_sublist cs)
  have hprod : ∃ sub : List V1.ProductRowN,
      List.Sublist sub (ps.map V1.coerceProduct) ∧
      (V1.clean_products ps).snd = sub.map V1.stripProductName := by
    have hsub : ((V1.clean_products ps).snd).Sublist
        (((ps.map V1.coerceProduct).filter V1.productKeep).map
          V1.stripProductName) :=
      drop_duplicates_sublist _ _
    obtain ⟨sub, hsub2, heq⟩ := List.sublist_map_iff.mp hsub
    exact ⟨sub, hsub2.trans (List.filter_sublist _), heq⟩
  have hord : ((V1.clean_orders os).snd).Sublist (os.map V1.coerceOrder) :=
    (drop_duplicates_sublist _ _).trans (List.filter_sublist _)
  have hship : (V1.clean_shipments shs).Sublist shs :=
    (drop_duplicates_sublist _ _).trans (List.filter_sublist shs)
  have href : ((V1.clean_refunds rs).snd).Sublist (rs.map V1.coerceRefund) :=
    (drop_duplicates_sublist _ _).trans (List.filter_sublist _)
  have hlc : (V1.clean_customers cs).length ≤ cs.length := hcus.length_le
  have hlp : ((V1.clean_products ps).snd).length ≤ ps.length := by
    obtain ⟨sub, hsub, heq⟩ := hprod
    calc ((V1.clean_products ps).snd).length = (sub.map V1.stripProductName).length := by
          rw [heq]
      _ = sub.length := List.length_map _ _
      _ ≤ (ps.map V1.coerceProduct).length := hsub.length_le
      _ = ps.length := List.length_map _ _
  have hlo : ((V1.clean_orders os).snd).length ≤ os.length := by
    have := hord.length_le
    rwa [List.length_map] at this
  have hls : (V1.clean_shipments shs).length ≤ shs.length := hship.length_le
  have hlr : ((V1.clean_refunds rs).snd).length ≤ rs.length := by
    have := href.length_le
    rwa [List.length_map] at this
  refine ⟨?_, hcus, hprod, hord, hship, href, ?_, ?_, ?_, ?_, ?_⟩
  · simp only [V1.runPipeline, V1.clean_all_data, V1.cleanCustomersStep,
      V1.cleanProductsStep, V1.cleanOrdersStep, V1.cleanShipmentsStep,
      V1.cleanRefundsStep, V1.initState, V1.productsCoerced, V1.ordersCoerced,
      V1.refundsCoerced, V1.calculate_all_metrics, V1.clean_customers,
      V1.clean_products, V1.clean_orders, V1.clean_shipments, V1.clean_refunds,
      Option.map_some]
    simp [V1.rawCount, List.length_map]
  all_goals omega

/-- C3 (counterexample): the standalone variant's `clean_refunds` performs
no deduplication — two surviving rows can share an id, and the later one is
not removed. -/
theorem cdc_refunds_keep_duplicate_ids :
    CDC.clean_refunds [refundDup1, refundDup2] [uuidB] [uuidC] =
      .ok [refundDup1, refundDup2] ∧
    refundDup1.id = refundDup2.id ∧ refundDup1 ≠ refundDup2 := by
  refine ⟨by rfl, by decide, by decide⟩

/-- C3 (amended): every cleaner that ends in `drop_duplicates(subset='id')`
— all five class-based cleaners and the standalone `clean_shipments` —
produces unique ids, keeps exactly the first-encountered row among the
validated rows sharing an id, and loses no id; the standalone
`clean_refunds` deduplicates nothing (see the counterexample). -/
theorem dedup_cleaners_unique_first
    (cs : List V1.CustomerRow) (ps : List V1.ProductRowS)
    (os : List V1.OrderRowS) (shs : List V1.ShipmentRow)
    (rs : List V1.RefundRowS) (sdf : List CDC.ShipmentRow) :
    (((V1.clean_customers cs).map (·.id)).Nodup ∧
      (∀ y ∈ V1.clean_customers cs,
        (cs.filter V1.customerKeep).find? (fun x => decide (x.id = y.id)) =
          some y) ∧
      ∀ x ∈ cs.filter V1.customerKeep,
        x.id ∈ (V1.clean_customers cs).map (·.id)) ∧
    ((((V1.clean_products ps).snd).map (·.id)).Nodup ∧
      (∀ y ∈ (V1.clean_products ps).snd,
        (((ps.map V1.coerceProduct).filter V1.productKeep).map
            V1.stripProductName).find? (fun x => decide (x.id = y.id)) =
          some y) ∧
      ∀ x ∈ ((ps.map V1.coerceProduct).filter V1.productKeep).map
          V1.stripProductName,
        x.id ∈ ((V1.clean_products ps).snd).map (·.id)) ∧
    ((((V1.clean_orders os).snd).map (·.id)).Nodup ∧
      (∀ y ∈ (V1.clean_orders os).snd,
        ((os.map V1.coerceOrder).filter V1.orderKeep).find?
            (fun x => decide (x.id = y.id)) = some y) ∧
      ∀ x ∈ (os.map V1.coerceOrder).filter V1.orderKeep,
        x.id ∈ ((V1.clean_orders os).snd).map (·.id)) ∧
    (((V1.clean_shipments shs).map (·.id)).Nodup ∧
      (∀ y ∈ V1.clean_shipments shs,
        (shs.filter V1.shipmentKeep).find? (fun x => decide (x.id = y.id)) =
          some y) ∧
      ∀ x ∈ shs.filter V1.shipmentKeep,
        x.id ∈ (V1.clean_shipments shs).map (·.id)) ∧
    ((((V1.clean_refunds rs).snd).map (·.id)).Nodup ∧
      (∀ y ∈ (V1.clean_refunds rs).snd,
        ((rs.map V1.coerceRefund).filter V1.refundKeep).find?
            (fun x => decide (x.id = y.id)) = some y) ∧
      ∀ x ∈ (rs.map V1.coerceRefund).filter V1.refundKeep,
        x.id ∈ ((V1.clean_refunds rs).snd).map (·.id)) ∧
    (((CDC.clean_shipments sdf).map (·.id)).Nodup ∧
      (∀ y ∈ CDC.clean_shipments sdf,
        (CDC.shipmentsPreDedup sdf).find? (fun x => decide (x.id = y.id)) =
          some y) ∧
      ∀ x ∈ CDC.shipmentsPreDedup sdf,
        x.id ∈ (CDC.clean_shipments sdf).map (·.id)) :=
  ⟨drop_duplicates_spec _ _, drop_duplicates_spec _ _,
    drop_duplicates_spec _ _, drop_duplicates_spec _ _,
    drop_duplicates_spec _ _, drop_duplicates_spec _ _⟩

/-- C3 (witness): with two valid customer rows sharing an id, the survivor
is the first-encountered one. -/
theorem dedup_cleaners_unique_first_witness :
    ([custA, custA2].filter V1.customerKeep).find?
        (fun x => decide (x.id = custA.id)) = some custA :=
  (dedup_cleaners_unique_first [custA, custA2] [] [] [] [] []).1.2.1 custA
    (by decide)

/-- C4 (code bug): the standalone `clean_refunds` does not exclude a row
whose `refund_amount` fails to parse — the column-wide `astype(float)`
raises instead, so the cleaner aborts on such input rather than returning a
cleaned dataset. -/
theorem cdc_refunds_raises_on_bad_amount :
    CDC.clean_refunds [refundBadAmount] [uuidB] [uuidC] = .error () := by
  rfl

/-- C6 (counterexample): a product whose raw name is only special
characters passes the non-empty-name filter, and the final
special-character strip then leaves the surviving row with an empty name. -/
theorem product_name_can_strip_to_empty :
    (V1.clean_products [productBangOnly]).snd =
      [{ id := uuidA
         name := []
         category := chars "Furniture"
         price := PyFloat.num 5
         stock := PyFloat.num 3 }] := by
  decide

/-- C6 (amended): every cleaned Product row arises from a coerced raw row
that passed validation — in particular one whose name was non-empty after
trimming — with the special-character strip applied afterwards; the strip
itself may leave the final name empty (see the counterexample). -/
theorem product_name_nonempty_before_strip
    (ps : List V1.ProductRowS) (r : V1.ProductRowN)
    (h : r ∈ (V1.clean_products ps).snd) :
    ∃ r0, r0 ∈ ps.map V1.coerceProduct ∧ V1.productKeep r0 = true ∧
      r = V1.stripProductName r0 ∧ pyStrip r0.name ≠ [] := by
  have h2 : r ∈ ((ps.map V1.coerceProduct).filter V1.productKeep).map
      V1.stripProductName :=
    (drop_duplicates_sublist (fun x : V1.ProductRowN => x.id) _).subset h
  rcases List.mem_map.mp h2 with ⟨r0, hr0, rfl⟩
  have hk := List.mem_filter.mp hr0
  refine ⟨r0, hk.1, hk.2, rfl, ?_⟩
  have hkeep := hk.2
  simp only [V1.productKeep, Bool.and_eq_true, decide_eq_true_eq] at hkeep
  exact hkeep.1.1.1.2

/-- C6 (witness): the provenance theorem applied to the concrete dataset of
the counterexample. -/
theorem product_name_nonempty_before_strip_witness :
    ∃ r0, r0 ∈ [productBangOnly].map V1.coerceProduct ∧
      V1.productKeep r0 = true ∧
      ({ id := uuidA
         name := []
         category := chars "Furniture"
         price := PyFloat.num 5
         stock := PyFloat.num 3 } : V1.ProductRowN) = V1.stripProductName r0 ∧
      pyStrip r0.name ≠ [] :=
  product_name_nonempty_before_strip [productBangOnly] _ (by decide)

/-- C7 (counterexample): in the class-based pipeline — the one that
computes `shipping_performance_by_carrier` — a shipment with status
`"  Delivered!! "` is not normalized (no common cleanup exists there); it
fails the status whitelist, is dropped, and is counted for no carrier. -/
theorem delivered_status_dropped_in_v1 :
    V1.clean_shipments [shipDelivV1] = [] ∧
    V1.calculate_shipping_performance (V1.clean_shipments [shipDelivV1]) =
      [] := by
  refine ⟨by decide, by rfl⟩

/-- C7 (amended): `clean_common` — which exists only in the standalone
cleaning script, a variant that computes no shipping metric — does
normalize the status `"  Delivered!! "` to `"Delivered"` on the surviving
row; the class-based pipeline applies no such cleanup and drops the row
instead, so it is counted under no carrier's `on_time_deliveries`. -/
theorem clean_common_normalizes_delivered :
    CDC.clean_common_cell (chars "  Delivered!! ") = chars "Delivered" ∧
    CDC.clean_shipments [shipDelivCDC] =
      [{ id := uuidA
         order_id := uuidB
         carrier := chars "FedEx"
         status := chars "Delivered"
         shipment_date := chars "2023-01-02"
         delivery_date := chars "2023-01-05" }] ∧
    V1.clean_shipments [shipDelivV1] = [] ∧
    V1.calculate_shipping_performance (V1.clean_shipments [shipDelivV1]) =
      [] := by
  refine ⟨by decide, by decide, by decide, by rfl⟩

/-- C9 (confirmed): the assembled report is a deterministic function of the
raw datasets alone — two cleaner states agreeing on the five raw datasets
(whatever their pre-existing `valid_*` attributes) yield identical reports
after a full run, and a report is always produced. -/
theorem pipeline_deterministic_in_raw (s1 s2 : V1.CleanerState)
    (h1 : s1.customers = s2.customers) (h2 : s1.products = s2.products)
    (h3 : s1.orders = s2.orders) (h4 : s1.shipments = s2.shipments)
    (h5 : s1.refunds = s2.refunds) :
    V1.calculate_all_metrics (V1.clean_all_data s1) =
      V1.calculate_all_metrics (V1.clean_all_data s2) ∧
    (V1.calculate_all_metrics (V1.clean_all_data s1)).isSome = true := by
  obtain ⟨c1, p1, o1, sh1, r1, vc1, vp1, vo1, vs1, vr1⟩ := s1
  obtain ⟨c2, p2, o2, sh2, r2, vc2, vp2, vo2, vs2, vr2⟩ := s2
  simp only at h1 h2 h3 h4 h5
  subst h1 h2 h3 h4 h5
  exact ⟨rfl, rfl⟩

/-- C9 (witness): two concrete states over the same raw datasets, one with
a stale `valid_customers` attribute, produce the same report. -/
theorem pipeline_deterministic_in_raw_witness :
    (V1.calculate_all_metrics (V1.clean_all_data stateEmptyA) =
      V1.calculate_all_metrics (V1.clean_all_data stateEmptyB)) ∧
    (V1.calculate_all_metrics (V1.clean_all_data stateEmptyA)).isSome =
      true :=
  pipeline_deterministic_in_raw stateEmptyA stateEmptyB rfl rfl rfl rfl rfl

/-- C10 (confirmed): a full run overwrites the stored raw products, orders
and refunds with their field-coerced forms, leaves raw customers and
shipments untouched, and never adds or removes a raw row: every raw
dataset's row count equals its row count at load time. -/
theorem cleaners_preserve_raw_row_counts
    (cs : List V1.CustomerRow) (ps : List V1.ProductRowS)
    (os : List V1.OrderRowS) (shs : List V1.ShipmentRow)
    (rs : List V1.RefundRowS) :
    (V1.clean_all_data (V1.initState cs ps os shs rs)).customers = cs ∧
    (V1.clean_all_data (V1.initState cs ps os shs rs)).products =
      .inr (ps.map V1.coerceProduct) ∧
    (V1.clean_all_data (V1.initState cs ps os shs rs)).orders =
      .inr (os.map V1.coerceOrder) ∧
    (V1.clean_all_data (V1.initState cs ps os shs rs)).shipments = shs ∧
    (V1.clean_all_data (V1.initState cs ps os shs rs)).refunds =
      .inr (rs.map V1.coerceRefund) ∧
    V1.rawCount (V1.clean_all_data (V1.initState cs ps os shs rs)).products =
      ps.length ∧
    V1.rawCount (V1.clean_all_data (V1.initState cs ps os shs rs)).orders =
      os.length ∧
    V1.rawCount (V1.clean_all_data (V1.initState cs ps os shs rs)).refunds =
      rs.length ∧
    (V1.clean_all_data (V1.initState cs ps os shs rs)).customers.length =
      cs.length ∧
    (V1.clean_all_data (V1.initState cs ps os shs rs)).shipments.length =
      shs.length := by
  refine ⟨rfl, rfl, rfl, rfl, rfl, ?_, ?_, ?_, rfl, rfl⟩ <;>
    simp [V1.rawCount, V1.clean_all_data, V1.cleanCustomersStep,
      V1.cleanProductsStep, V1.cleanOrdersStep, V1.cleanShipmentsStep,
      V1.cleanRefundsStep, V1.initState, V1.productsCoerced, V1.ordersCoerced,
      V1.refundsCoerced, List.length_map]

/-- C8 (counterexample): `refund_reason_analysis` in the metrics script is
computed from the raw refunds — a row cleaning would discard still counts,
and its amount enters the totals undivided (division by 100 would have
yielded `0.5`, and the separate cleaning script would have dropped the row
with the invalid id entirely). -/
theorem refund_analysis_uses_raw_amounts :
    SR.refund_reason_analysis [srRefund] =
      [{ reason := chars "Damaged"
         total_returns := 1
         total_refund_amount := PyFloat.num 50 }] ∧
    CDC.clean_refunds [cdcRefundBadId] [uuidB] [uuidC] = .ok [] ∧
    CDC.div100 (PyFloat.num 50) = PyFloat.num (mkRat 1 2) := by
  refine ⟨by decide, by rfl, by decide⟩

/-- C8 (amended): `refund_reason_analysis` of the metrics script groups the
raw refunds (amounts coerced to numeric, unparseable ones treated as
missing) by reason, counts the parseable amounts per reason and sums them,
and keeps at most 5 entries ordered by descending `total_refund_amount`; no
division by 100 takes place there — the ÷100 unit correction exists only in
the separate cleaning script's `__main__`, which computes no aggregation. -/
theorem refund_reason_analysis_spec (df : List SR.RefundRow) :
    (SR.refund_reason_analysis df).length ≤ 5 ∧
    (SR.refund_reason_analysis df).Pairwise
      (fun a b =>
        PyFloat.leB b.total_refund_amount a.total_refund_amount = true) ∧
    ∀ e ∈ SR.refund_reason_analysis df,
      e.reason ∈ df.map SR.RefundRow.reason ∧
      e.total_returns = skipnaCount
        ((df.filter fun r => decide (r.reason = e.reason)).map
          fun r => to_numeric r.refund_amount) ∧
      e.total_refund_amount = skipnaSum
        ((df.filter fun r => decide (r.reason = e.reason)).map
          fun r => to_numeric r.refund_amount) := by
  refine ⟨nlargestBy_length_le _ 5 _, nlargestBy_sorted _ 5 _, ?_⟩
  intro e he
  have he2 : e ∈ (groupBy lexLe Prod.fst
      (df.map fun r => (r.reason, to_numeric r.refund_amount))).map
        (fun g =>
          ({ reason := g.fst
             total_returns := skipnaCount (g.snd.map Prod.snd)
             total_refund_amount := skipnaSum (g.snd.map Prod.snd) } :
            SR.ReasonEntry)) :=
    mem_nlargestBy he
  rcases List.mem_map.mp he2 with ⟨g, hg, rfl⟩
  obtain ⟨hfilt, hkey⟩ := mem_groupBy hg
  have hmap : g.snd.map Prod.snd =
      (df.filter fun r => decide (r.reason = g.fst)).map
        fun r => to_numeric r.refund_amount := by
    rw [hfilt, List.filter_map, List.map_map]
    rfl
  refine ⟨?_, ?_, ?_⟩
  · show g.fst ∈ df.map SR.RefundRow.reason
    simpa [List.map_map, Function.comp] using hkey
  · show skipnaCount (g.snd.map Prod.snd) = skipnaCount
      ((df.filter fun r => decide (r.reason = g.fst)).map
        fun r => to_numeric r.refund_amount)
    rw [hmap]
  · show skipnaSum (g.snd.map Prod.snd) = skipnaSum
      ((df.filter fun r => decide (r.reason = g.fst)).map
        fun r => to_numeric r.refund_amount)
    rw [hmap]

/-- C8 (witness): the aggregation theorem applied to a concrete dataset and
its concrete output entry. -/
theorem refund_reason_analysis_spec_witness :
    ({ reason := chars "Damaged"
       total_returns := 1
       total_refund_amount := PyFloat.num 50 } : SR.ReasonEntry).reason ∈
        [srRefund].map SR.RefundRow.reason ∧
    ({ reason := chars "Damaged"
       total_returns := 1
       total_refund_amount := PyFloat.num 50 } : SR.ReasonEntry).total_returns
      = skipnaCount (([srRefund].filter fun r =>
          decide (r.reason = chars "Damaged")).map
            fun r => to_numeric r.refund_amount) ∧
    ({ reason := chars "Damaged"
       total_returns := 1
       total_refund_amount := PyFloat.num 50 } :
        SR.ReasonEntry).total_refund_amount
      = skipnaSum (([srRefund].filter fun r =>
          decide (r.reason = chars "Damaged")).map
            fun r => to_numeric r.refund_amount) :=
  (refund_reason_analysis_spec [srRefund]).2.2 _ (by decide)
